import Mathlib

/-!
Shallow embedding of `data/create_example_csv.py`: a script that generates
random environmental sensor data for 4 users, 2 devices per user and
10 events per device, and writes it as a CSV file.

Randomness is modelled by a tape of natural-number draws (one tape cell per
primitive request to a random source, `uuid.uuid4()` included) threaded
through the computation in program order, and the wall clock by a sequence
of integer readings (one per `time.time()` call).  A run of the script is a
pure function of the tape and the clock sequence.
-/

namespace CreateExampleCsv

/-- Execution environment: the random tape together with the next read
position, and the clock sequence together with the next reading index. -/
structure Env where
  tape : Nat → Nat
  pos : Nat
  clock : Nat → Int
  tick : Nat

/-- Read one value from the random tape. -/
def draw (e : Env) : Nat × Env :=
  (e.tape e.pos, { e with pos := e.pos + 1 })

/-- Read the wall clock, as in `int(time.time())`. -/
def timeNow (e : Env) : Int × Env :=
  (e.clock e.tick, { e with tick := e.tick + 1 })

/-- Python `random.randint(a, b)`: a uniform integer in the inclusive range
`[a, b]`, modelled as `a` plus the tape value reduced mod the range size. -/
def randint (a b : Int) (e : Env) : Int × Env :=
  let (d, e') := draw e
  (a + ((d % (b - a + 1).toNat : Nat) : Int), e')

/-- Python `random.choice`: a uniform element of a nonempty sequence,
modelled by reducing one tape value mod the sequence length. -/
def choice {α : Type} (l : List α) (dflt : α) (e : Env) : α × Env :=
  let (d, e') := draw e
  (l.getD (d % l.length) dflt, e')

/-- Python `random.random()`: a uniform draw in `[0, 1)`, modelled with the
53-bit resolution of the reference implementation, as an exact rational. -/
def randomUnit (e : Env) : ℚ × Env :=
  let (d, e') := draw e
  (((d % 2 ^ 53 : ℕ) : ℚ) / 2 ^ 53, e')

/-- Emulation of `uuid.uuid4()`: each call yields a fresh 128-bit random
token, modelled as one tape draw reduced mod `2 ^ 128`.  The source's
`gen_uuids(count)` generator is lazy, so each loop iteration performs
exactly one such call at its head; the loops below inline this. -/
def uuid4 (e : Env) : Nat × Env :=
  let (d, e') := draw e
  (d % 2 ^ 128, e')

/-- The hardcoded `locations` dictionary of `random_geoLocation`, with its
keys in insertion order. -/
def locations : List (String × List String) :=
  [("TX", ["Austin", "San Antonio"]),
   ("CA", ["Berkely", "Las Angeles", "San Diego"]),
   ("VT", ["Burlington", "St. Albans"])]

/-- Source function `random_geoLocation`: choose a state uniformly among the
dictionary keys, then a city uniformly from that state's list, and join the
constant planet and country labels, the state and the city with dashes. -/
def random_geoLocation (e : Env) : String × Env :=
  let (st, e1) := choice (locations.map Prod.fst) "" e
  let cities := (locations.lookup st).getD []
  let (city, e2) := choice cities "" e1
  ("Earth" ++ "-" ++ "US" ++ "-" ++ st ++ "-" ++ city, e2)

/-- Source function `random_time`: the current clock reading minus a uniform
offset in `[100, 10000]`.  The clock is read first, as in the source. -/
def random_time (e : Env) : Int × Env :=
  let (t, e1) := timeNow e
  let (r, e2) := randint 100 10000 e1
  (t - r, e2)

/-- Rounding to 2 decimal digits, as in Python `round(x, 2)` (modelled over
exact rationals). -/
def round2 (x : ℚ) : ℚ := ((round (x * 100) : ℤ) : ℚ) / 100

/-- Source function `random_tempC`: a uniform draw in `[0, 1)` scaled by 120
and rounded to 2 decimal digits. -/
def random_tempC (e : Env) : ℚ × Env :=
  let (u, e1) := randomUnit e
  (round2 (u * 120), e1)

/-- Source function `random_humidityPct`: uniform integer in `[0, 100]`. -/
def random_humidityPct (e : Env) : Int × Env := randint 0 100 e

/-- Source function `random_pressurePa`: uniform integer in
`[100000, 105000]`. -/
def random_pressurePa (e : Env) : Int × Env := randint 100000 105000 e

/-- Source function `random_expiry`: build the tuple
`(0, 0, 0, startEpochS + randint(60, 600))` — the offset is drawn while the
tuple is built, before the choice draw — and pick one of its four slots
uniformly. -/
def random_expiry (startEpochS : Int) (e : Env) : Int × Env :=
  let (off, e1) := randint 60 600 e
  choice [0, 0, 0, startEpochS + off] 0 e1

/-- One output record of the generator, with the source's field names. -/
structure Row where
  userId : Nat
  deviceId : Nat
  eventId : Nat
  geoLocation : String
  epochS : Int
  expiry : Int
  tempC : ℚ
  humidityPct : Int
  pressurePa : Int
deriving DecidableEq, Inhabited

/-- Body of the innermost loop: draw the event id, then the per-event
scalars in source order, and assemble the row. -/
def mkEvent (u d : Nat) (geo : String) (e : Env) : Row × Env :=
  let (eventId, e1) := uuid4 e
  let (epochS, e2) := random_time e1
  let (expiry, e3) := random_expiry epochS e2
  let (tempC, e4) := random_tempC e3
  let (humidityPct, e5) := random_humidityPct e4
  let (pressurePa, e6) := random_pressurePa e5
  (⟨u, d, eventId, geo, epochS, expiry, tempC, humidityPct, pressurePa⟩, e6)

/-- The `for eventId in gen_uuids(10)` loop: the lazy generator draws one
uuid at the head of each iteration (inside `mkEvent`). -/
def eventLoop (u d : Nat) (geo : String) : Nat → Env → List Row × Env
  | 0, e => ([], e)
  | n + 1, e =>
    let (r, e1) := mkEvent u d geo e
    let (rs, e2) := eventLoop u d geo n e1
    (r :: rs, e2)

/-- The `for deviceId in gen_uuids(2)` loop: per device, draw the device id,
then its geo location (once), then run the 10-event loop. -/
def deviceLoop (u : Nat) : Nat → Env → List Row × Env
  | 0, e => ([], e)
  | n + 1, e =>
    let (d, e1) := uuid4 e
    let (geo, e2) := random_geoLocation e1
    let (rs, e3) := eventLoop u d geo 10 e2
    let (rest, e4) := deviceLoop u n e3
    (rs ++ rest, e4)

/-- The `for userId in gen_uuids(4)` loop. -/
def userLoop : Nat → Env → List Row × Env
  | 0, e => ([], e)
  | n + 1, e =>
    let (u, e1) := uuid4 e
    let (rs, e2) := deviceLoop u 2 e1
    let (rest, e3) := userLoop n e2
    (rs ++ rest, e3)

/-- All 80 data rows of one run, as a function of the clock sequence and the
random tape. -/
def runRows (clock : Nat → Int) (tape : Nat → Nat) : List Row :=
  (userLoop 4 ⟨tape, 0, clock, 0⟩).1

/-- One serialized CSV cell.  The textual rendering of each scalar (Python
`str()`; hex-with-dashes for uuids, decimal for numbers) is abstracted by
the constructors, injectively on the values the script produces. -/
inductive Cell where
  | uuid (v : Nat)
  | text (v : String)
  | int (v : Int)
  | dec (v : ℚ)
deriving DecidableEq

/-- The source's `fields` list. -/
def fields : List String :=
  ["userId", "deviceId", "eventId", "geoLocation", "epochS", "expiry",
   "tempC", "humidityPct", "pressurePa"]

/-- The header row, `envwriter.writerow(fields)`. -/
def headerLine : List Cell := fields.map Cell.text

/-- The list passed to `envwriter.writerow` for one data row, in the order
written in the source. -/
def rowRecord (r : Row) : List Cell :=
  [.uuid r.userId, .uuid r.deviceId, .uuid r.eventId, .text r.geoLocation,
   .int r.epochS, .int r.expiry, .dec r.tempC, .int r.humidityPct,
   .int r.pressurePa]

/-- The sequence of rows handed to the csv writer: the header first, then
one line per data row, in generation order. -/
def outputLines (clock : Nat → Int) (tape : Nat → Nat) : List (List Cell) :=
  headerLine :: (runRows clock tape).map rowRecord

/-- Textual form of one cell.  No cell the script produces contains the
delimiter, a quote character or a line break, so `csv.writer` applies no
quoting and each row renders as its cells joined by commas. -/
def renderCell : Cell → String
  | .uuid v => toString v
  | .text s => s
  | .int i => toString i
  | .dec q => toString q

/-- One CSV line: the cells joined by the comma delimiter. -/
def renderLine (l : List Cell) : String :=
  String.intercalate "," (l.map renderCell)

/-- The byte content of the output file: `csv.writer` terminates every row
with CRLF. -/
def outputText (clock : Nat → Int) (tape : Nat → Nat) : String :=
  String.join ((outputLines clock tape).map (fun l => renderLine l ++ "\r\n"))

/-- Advance the environment by `p` tape positions and `t` clock readings. -/
def skip (e : Env) (p t : Nat) : Env :=
  { e with pos := e.pos + p, tick := e.tick + t }

theorem skip_zero (e : Env) : skip e 0 0 = e := by
  cases e; simp [skip]

theorem skip_skip (e : Env) (p t p' t' : Nat) :
    skip (skip e p t) p' t' = skip e (p + p') (t + t') := by
  cases e; simp [skip, Nat.add_assoc]

@[simp] theorem skip_tape (e : Env) (p t : Nat) : (skip e p t).tape = e.tape := rfl

@[simp] theorem skip_clock (e : Env) (p t : Nat) : (skip e p t).clock = e.clock := rfl

@[simp] theorem skip_pos (e : Env) (p t : Nat) : (skip e p t).pos = e.pos + p := rfl

@[simp] theorem skip_tick (e : Env) (p t : Nat) : (skip e p t).tick = e.tick + t := rfl

/-- The geo-location string determined by the two geo draws: the first picks
the state among the three keys, the second the city in that state's list. -/
def geoFromDraws (a b : Nat) : String :=
  let st := (locations.map Prod.fst).getD (a % (locations.map Prod.fst).length) ""
  let cities := (locations.lookup st).getD []
  "Earth" ++ "-" ++ "US" ++ "-" ++ st ++ "-" ++ cities.getD (b % cities.length) ""

theorem random_geoLocation_eq (e : Env) :
    random_geoLocation e =
      (geoFromDraws (e.tape e.pos) (e.tape (e.pos + 1)), skip e 2 0) := rfl

@[simp] theorem mkEvent_userId (u d : Nat) (g : String) (e : Env) :
    (mkEvent u d g e).1.userId = u := rfl

@[simp] theorem mkEvent_deviceId (u d : Nat) (g : String) (e : Env) :
    (mkEvent u d g e).1.deviceId = d := rfl

@[simp] theorem mkEvent_geoLocation (u d : Nat) (g : String) (e : Env) :
    (mkEvent u d g e).1.geoLocation = g := rfl

@[simp] theorem mkEvent_eventId (u d : Nat) (g : String) (e : Env) :
    (mkEvent u d g e).1.eventId = e.tape e.pos % 2 ^ 128 := rfl

@[simp] theorem mkEvent_epochS (u d : Nat) (g : String) (e : Env) :
    (mkEvent u d g e).1.epochS =
      e.clock e.tick - (100 + ((e.tape (e.pos + 1)) % 9901 : ℕ)) := rfl

@[simp] theorem mkEvent_expiry (u d : Nat) (g : String) (e : Env) :
    (mkEvent u d g e).1.expiry =
      [0, 0, 0, e.clock e.tick - (100 + ((e.tape (e.pos + 1)) % 9901 : ℕ))
        + (60 + ((e.tape (e.pos + 2)) % 541 : ℕ))].getD
        ((e.tape (e.pos + 3)) % 4) 0 := rfl

@[simp] theorem mkEvent_tempC (u d : Nat) (g : String) (e : Env) :
    (mkEvent u d g e).1.tempC =
      round2 ((((e.tape (e.pos + 4)) % 2 ^ 53 : ℕ) : ℚ) / 2 ^ 53 * 120) := rfl

@[simp] theorem mkEvent_humidityPct (u d : Nat) (g : String) (e : Env) :
    (mkEvent u d g e).1.humidityPct = 0 + ((e.tape (e.pos + 5)) % 101 : ℕ) := rfl

@[simp] theorem mkEvent_pressurePa (u d : Nat) (g : String) (e : Env) :
    (mkEvent u d g e).1.pressurePa =
      100000 + ((e.tape (e.pos + 6)) % 5001 : ℕ) := rfl

theorem mkEvent_snd (u d : Nat) (g : String) (e : Env) :
    (mkEvent u d g e).2 = skip e 7 1 := rfl

theorem uuid4_eq (e : Env) : uuid4 e = (e.tape e.pos % 2 ^ 128, skip e 1 0) := rfl

theorem flatMap_ext {α β : Type} {f g : α → List β} (l : List α)
    (h : ∀ a, f a = g a) : l.flatMap f = l.flatMap g := by
  rw [funext h]

theorem map_ext {α β : Type} {f g : α → β} (l : List α)
    (h : ∀ a, f a = g a) : l.map f = l.map g := by
  rw [funext h]

theorem skip_congr (e : Env) {p t p' t' : Nat} (hp : p = p') (ht : t = t') :
    skip e p t = skip e p' t' := by
  rw [hp, ht]

theorem mkEvent_congr (u : Nat) {d d' : Nat} {g g' : String} {e e' : Env}
    (hd : d = d') (hg : g = g') (he : e = e') :
    (mkEvent u d g e).1 = (mkEvent u d' g' e').1 := by
  rw [hd, hg, he]

theorem eventLoop_eq (u d : Nat) (g : String) :
    ∀ (n : Nat) (e : Env),
      eventLoop u d g n e =
        ((List.range n).map (fun k => (mkEvent u d g (skip e (7 * k) k)).1),
          skip e (7 * n) n) := by
  intro n
  induction n with
  | zero => intro e; simp [eventLoop, skip_zero]
  | succ n ih =>
    intro e
    simp only [eventLoop, mkEvent_snd, ih (skip e 7 1)]
    rw [show List.range (n + 1) = 0 :: List.map Nat.succ (List.range n) from
      List.range_succ_eq_map n, List.map_cons, List.map_map]
    simp only [Prod.mk.injEq, List.cons.injEq]
    refine ⟨⟨?_, ?_⟩, ?_⟩
    · exact mkEvent_congr u rfl rfl (by rw [Nat.mul_zero, skip_zero])
    · apply map_ext
      intro k
      simp only [Function.comp_apply, skip_skip]
      exact mkEvent_congr u rfl rfl (skip_congr e (by omega) (by omega))
    · rw [skip_skip]
      exact skip_congr e (by omega) (by omega)

/-- The rows of one device iteration, starting from environment `e`: the
device id is the uuid drawn at `e.pos`, the geo string is computed from the
next two draws and shared by all 10 events, and event `k` starts `3 + 7 k`
positions and `k` clock readings later. -/
def devRows (u : Nat) (e : Env) : List Row :=
  (List.range 10).map fun k =>
    (mkEvent u (e.tape e.pos % 2 ^ 128)
      (geoFromDraws (e.tape (e.pos + 1)) (e.tape (e.pos + 2)))
      (skip e (3 + 7 * k) k)).1

theorem devRows_congr {u u' : Nat} {e e' : Env} (hu : u = u') (he : e = e') :
    devRows u e = devRows u' e' := by
  rw [hu, he]

theorem append_congr {α : Type} {a b c d : List α} (h1 : a = c) (h2 : b = d) :
    a ++ b = c ++ d := by
  rw [h1, h2]

theorem tapeTok_congr (tape : Nat → Nat) {i i' : Nat} (h : i = i') :
    tape i % 2 ^ 128 = tape i' % 2 ^ 128 := by
  rw [h]

theorem geo_congr (tape : Nat → Nat) {a a' b b' : Nat} (h1 : a = a')
    (h2 : b = b') :
    geoFromDraws (tape a) (tape b) = geoFromDraws (tape a') (tape b') := by
  rw [h1, h2]

theorem deviceLoop_eq (u : Nat) :
    ∀ (n : Nat) (e : Env),
      deviceLoop u n e =
        ((List.range n).flatMap (fun j => devRows u (skip e (73 * j) (10 * j))),
          skip e (73 * n) (10 * n)) := by
  intro n
  induction n with
  | zero => intro e; simp [deviceLoop, skip_zero]
  | succ n ih =>
    intro e
    simp only [deviceLoop, uuid4_eq, random_geoLocation_eq, eventLoop_eq,
      ih, skip_skip, skip_tape, skip_pos]
    rw [show List.range (n + 1) = 0 :: List.map Nat.succ (List.range n) from
      List.range_succ_eq_map n, List.flatMap_cons, List.flatMap_map]
    rw [Prod.ext_iff]
    constructor
    · refine append_congr ?_ ?_
      · simp only [devRows, skip_tape, skip_pos, skip_skip]
        apply map_ext
        intro k
        exact mkEvent_congr u (tapeTok_congr e.tape (by omega))
          (geo_congr e.tape (by omega) (by omega))
          (skip_congr e (by omega) (by omega))
      · apply flatMap_ext
        intro j
        exact devRows_congr rfl (skip_congr e (by omega) (by omega))
    · exact skip_congr e (by omega) (by omega)

/-- The rows of one user iteration, starting from environment `e`: the user
id is the uuid drawn at `e.pos` and device `j` starts `1 + 73 j` positions
and `10 j` clock readings later. -/
def userRows (e : Env) : List Row :=
  (List.range 2).flatMap fun j =>
    devRows (e.tape e.pos % 2 ^ 128) (skip e (1 + 73 * j) (10 * j))

theorem userRows_congr {e e' : Env} (he : e = e') : userRows e = userRows e' := by
  rw [he]

theorem userLoop_eq :
    ∀ (n : Nat) (e : Env),
      userLoop n e =
        ((List.range n).flatMap (fun i => userRows (skip e (147 * i) (20 * i))),
          skip e (147 * n) (20 * n)) := by
  intro n
  induction n with
  | zero => intro e; simp [userLoop, skip_zero]
  | succ n ih =>
    intro e
    simp only [userLoop, uuid4_eq, deviceLoop_eq, ih, skip_skip, skip_tape,
      skip_pos]
    rw [show List.range (n + 1) = 0 :: List.map Nat.succ (List.range n) from
      List.range_succ_eq_map n, List.flatMap_cons, List.flatMap_map]
    rw [Prod.ext_iff]
    constructor
    · refine append_congr ?_ ?_
      · simp only [userRows, skip_tape, skip_pos, skip_skip]
        apply flatMap_ext
        intro j
        exact devRows_congr (tapeTok_congr e.tape (by omega))
          (skip_congr e (by omega) (by omega))
      · apply flatMap_ext
        intro i
        exact userRows_congr (skip_congr e (by omega) (by omega))
    · exact skip_congr e (by omega) (by omega)

/-- Full characterization of a run: user `i` starts at tape position
`147 i` and clock index `20 i`. -/
theorem runRows_eq (clock : Nat → Int) (tape : Nat → Nat) :
    runRows clock tape =
      (List.range 4).flatMap fun i => userRows ⟨tape, 147 * i, clock, 20 * i⟩ := by
  unfold runRows
  rw [userLoop_eq]
  apply flatMap_ext
  intro i
  apply userRows_congr
  simp [skip]

/-- Tape position of the user token of user `i` (the run draws it at
position `147 i`). -/
def U (tape : Nat → Nat) (i : Nat) : Nat := tape (147 * i) % 2 ^ 128

/-- Tape position of the device token of device `j` of user `i`. -/
def D (tape : Nat → Nat) (i j : Nat) : Nat :=
  tape (147 * i + 73 * j + 1) % 2 ^ 128

/-- Geo-location string of device `j` of user `i`, computed from the two
draws following its device token. -/
def G (tape : Nat → Nat) (i j : Nat) : String :=
  geoFromDraws (tape (147 * i + 73 * j + 2)) (tape (147 * i + 73 * j + 3))

/-- The 80 event tokens of a run, in generation order: event `k` of device
`(i, j)` draws its uuid at tape position `147 i + 73 j + 4 + 7 k`. -/
def eventTokens (tape : Nat → Nat) : List Nat :=
  (List.range 4).flatMap fun i => (List.range 2).flatMap fun j =>
    (List.range 10).map fun k => tape (147 * i + 73 * j + 4 + 7 * k) % 2 ^ 128

theorem replicate_congr {α : Type} (n : Nat) {a b : α} (h : a = b) :
    List.replicate n a = List.replicate n b := by
  rw [h]

theorem pairTok_congr (tape : Nat → Nat) {a a' b b' : Nat} (h1 : a = a')
    (h2 : b = b') :
    ((tape a % 2 ^ 128, tape b % 2 ^ 128) : Nat × Nat) =
      (tape a' % 2 ^ 128, tape b' % 2 ^ 128) := by
  rw [h1, h2]

theorem pairDG_congr (tape : Nat → Nat) {a a' b b' c c' : Nat} (h1 : a = a')
    (h2 : b = b') (h3 : c = c') :
    ((tape a % 2 ^ 128, geoFromDraws (tape b) (tape c)) : Nat × String) =
      (tape a' % 2 ^ 128, geoFromDraws (tape b') (tape c')) := by
  rw [h1, h2, h3]

theorem devRows_map_userId (u : Nat) (e : Env) :
    (devRows u e).map Row.userId = List.replicate 10 u := by
  simp [devRows, List.map_map, Function.comp_def]

theorem devRows_map_pair_ud (u : Nat) (e : Env) :
    (devRows u e).map (fun r => (r.userId, r.deviceId)) =
      List.replicate 10 (u, e.tape e.pos % 2 ^ 128) := by
  simp [devRows, List.map_map, Function.comp_def]

theorem devRows_map_pair_dg (u : Nat) (e : Env) :
    (devRows u e).map (fun r => (r.deviceId, r.geoLocation)) =
      List.replicate 10 (e.tape e.pos % 2 ^ 128,
        geoFromDraws (e.tape (e.pos + 1)) (e.tape (e.pos + 2))) := by
  simp [devRows, List.map_map, Function.comp_def]

theorem devRows_map_eventId (u : Nat) (e : Env) :
    (devRows u e).map Row.eventId =
      (List.range 10).map fun k => e.tape (e.pos + (3 + 7 * k)) % 2 ^ 128 := by
  simp [devRows, List.map_map, Function.comp_def]

theorem userRows_map_userId (e : Env) :
    (userRows e).map Row.userId = List.replicate 20 (e.tape e.pos % 2 ^ 128) := by
  rw [userRows, List.map_flatMap]
  rw [show List.range 2 = [0, 1] from rfl]
  simp only [List.flatMap_cons, List.flatMap_nil, List.append_nil,
    devRows_map_userId]
  rw [show (20 : ℕ) = 10 + 10 from rfl, List.replicate_add]

theorem userRows_map_pair_ud (e : Env) :
    (userRows e).map (fun r => (r.userId, r.deviceId)) =
      (List.range 2).flatMap fun j =>
        List.replicate 10 (e.tape e.pos % 2 ^ 128,
          e.tape (e.pos + (1 + 73 * j)) % 2 ^ 128) := by
  rw [userRows, List.map_flatMap]
  apply flatMap_ext
  intro j
  rw [devRows_map_pair_ud]
  simp only [skip_tape, skip_pos]

theorem userRows_map_pair_dg (e : Env) :
    (userRows e).map (fun r => (r.deviceId, r.geoLocation)) =
      (List.range 2).flatMap fun j =>
        List.replicate 10 (e.tape (e.pos + (1 + 73 * j)) % 2 ^ 128,
          geoFromDraws (e.tape (e.pos + (1 + 73 * j) + 1))
            (e.tape (e.pos + (1 + 73 * j) + 2))) := by
  rw [userRows, List.map_flatMap]
  apply flatMap_ext
  intro j
  rw [devRows_map_pair_dg]
  simp only [skip_tape, skip_pos]

theorem userRows_map_eventId (e : Env) :
    (userRows e).map Row.eventId =
      (List.range 2).flatMap fun j => (List.range 10).map fun k =>
        e.tape (e.pos + (1 + 73 * j) + (3 + 7 * k)) % 2 ^ 128 := by
  rw [userRows, List.map_flatMap]
  apply flatMap_ext
  intro j
  rw [devRows_map_eventId]
  simp only [skip_tape, skip_pos]

theorem runRows_map_userId (clock : Nat → Int) (tape : Nat → Nat) :
    (runRows clock tape).map Row.userId =
      (List.range 4).flatMap fun i => List.replicate 20 (U tape i) := by
  rw [runRows_eq, List.map_flatMap]
  apply flatMap_ext
  intro i
  exact userRows_map_userId _

theorem runRows_map_pair_ud (clock : Nat → Int) (tape : Nat → Nat) :
    (runRows clock tape).map (fun r => (r.userId, r.deviceId)) =
      (List.range 4).flatMap fun i => (List.range 2).flatMap fun j =>
        List.replicate 10 (U tape i, D tape i j) := by
  rw [runRows_eq, List.map_flatMap]
  apply flatMap_ext
  intro i
  rw [userRows_map_pair_ud]
  apply flatMap_ext
  intro j
  simp only [U, D]
  exact replicate_congr 10 (pairTok_congr tape (by omega) (by omega))

theorem runRows_map_pair_dg (clock : Nat → Int) (tape : Nat → Nat) :
    (runRows clock tape).map (fun r => (r.deviceId, r.geoLocation)) =
      (List.range 4).flatMap fun i => (List.range 2).flatMap fun j =>
        List.replicate 10 (D tape i j, G tape i j) := by
  rw [runRows_eq, List.map_flatMap]
  apply flatMap_ext
  intro i
  rw [userRows_map_pair_dg]
  apply flatMap_ext
  intro j
  simp only [D, G]
  exact replicate_congr 10 (pairDG_congr tape (by omega) (by omega) (by omega))

theorem runRows_map_eventId (clock : Nat → Int) (tape : Nat → Nat) :
    (runRows clock tape).map Row.eventId = eventTokens tape := by
  rw [runRows_eq, List.map_flatMap, eventTokens]
  apply flatMap_ext
  intro i
  rw [userRows_map_eventId]
  apply flatMap_ext
  intro j
  apply map_ext
  intro k
  dsimp only
  exact tapeTok_congr tape (by omega)

theorem runRows_length (clock : Nat → Int) (tape : Nat → Nat) :
    (runRows clock tape).length = 80 := by
  have h := congrArg List.length (runRows_map_userId clock tape)
  rw [List.length_map] at h
  rw [h]
  rw [show List.range 4 = [0, 1, 2, 3] from rfl]
  simp [List.flatMap_cons]

theorem runRows_mem (clock : Nat → Int) (tape : Nat → Nat) {r : Row}
    (hr : r ∈ runRows clock tape) :
    ∃ (u d : Nat) (g : String) (e : Env),
      e.tape = tape ∧ e.clock = clock ∧ r = (mkEvent u d g e).1 := by
  rw [runRows_eq, List.mem_flatMap] at hr
  obtain ⟨i, -, hr⟩ := hr
  rw [userRows, List.mem_flatMap] at hr
  obtain ⟨j, -, hr⟩ := hr
  rw [devRows, List.mem_map] at hr
  obtain ⟨k, -, hr⟩ := hr
  exact ⟨_, _, _, _, rfl, rfl, hr.symm⟩

theorem mkEvent_expiry_cases (u d : Nat) (g : String) (e : Env) :
    (mkEvent u d g e).1.expiry = 0 ∨
      ∃ off : ℤ, 60 ≤ off ∧ off ≤ 600 ∧
        (mkEvent u d g e).1.expiry = (mkEvent u d g e).1.epochS + off := by
  rw [mkEvent_expiry, mkEvent_epochS]
  have h4 : e.tape (e.pos + 3) % 4 < 4 := Nat.mod_lt _ (by norm_num)
  set n := e.tape (e.pos + 3) % 4 with hn
  interval_cases n
  · exact Or.inl rfl
  · exact Or.inl rfl
  · exact Or.inl rfl
  · exact Or.inr ⟨60 + ((e.tape (e.pos + 2) % 541 : ℕ) : ℤ), by omega, by omega, rfl⟩

theorem round2_nonneg_le (x : ℚ) (h0 : 0 ≤ x) (hlt : x < 120) :
    0 ≤ round2 x ∧ round2 x ≤ 120 := by
  have h1 : (0 : ℤ) ≤ round (x * 100) := by
    rw [round_eq]
    apply Int.floor_nonneg.mpr
    linarith
  have h2 : round (x * 100) ≤ 12000 := by
    rw [round_eq]
    have hlt2 : (⌊x * 100 + 1 / 2⌋ : ℤ) < 12001 := by
      apply Int.floor_lt.mpr
      push_cast
      linarith
    omega
  unfold round2
  constructor
  · apply div_nonneg _ (by norm_num)
    exact_mod_cast h1
  · rw [div_le_iff₀ (by norm_num : (0 : ℚ) < 100)]
    calc ((round (x * 100) : ℤ) : ℚ) ≤ 12000 := by exact_mod_cast h2
    _ = 120 * 100 := by norm_num

/-- C3: in every run, every data row with a nonzero `expiry` has
`expiry` strictly greater than that row's `epochS`. -/
theorem expiry_gt_epochS (clock : Nat → Int) (tape : Nat → Nat) :
    ∀ r ∈ runRows clock tape, r.expiry ≠ 0 → r.epochS < r.expiry := by
  intro r hr hne
  obtain ⟨u, d, g, e, -, -, rfl⟩ := runRows_mem clock tape hr
  rcases mkEvent_expiry_cases u d g e with h | ⟨off, h60, _, heq⟩
  · exact absurd h hne
  · rw [heq]
    omega

/-- C4: `random_expiry t` draws one offset `off = 60 + (draw mod 541)` in
`[60, 600]`, picks slot `i = draw mod 4` of the four equally-weighted
outcomes `(0, 0, 0, t + off)` — of which the first three are the sentinel
`0` and the last is `t + off` — and returns that slot. -/
theorem random_expiry_distribution (t : Int) (e : Env) :
    ∃ (off : Int) (i : Nat),
      off = 60 + ((e.tape e.pos % 541 : ℕ) : Int) ∧
      60 ≤ off ∧ off ≤ 600 ∧
      i = e.tape (e.pos + 1) % 4 ∧ i < 4 ∧
      (random_expiry t e).1 = [0, 0, 0, t + off].getD i 0 ∧
      [0, 0, 0, t + off].getD 0 0 = 0 ∧
      [0, 0, 0, t + off].getD 1 0 = 0 ∧
      [0, 0, 0, t + off].getD 2 0 = 0 ∧
      [0, 0, 0, t + off].getD 3 0 = t + off := by
  exact ⟨60 + ((e.tape e.pos % 541 : ℕ) : Int), e.tape (e.pos + 1) % 4, rfl,
    by omega, by omega, rfl, Nat.mod_lt _ (by norm_num), rfl, rfl, rfl, rfl, rfl⟩

/-- C8: every data row's `epochS` is one clock reading minus a uniform
offset in `[100, 10000]`, hence strictly in the past relative to that
reading. -/
theorem epochS_recent_past (clock : Nat → Int) (tape : Nat → Nat) :
    ∀ r ∈ runRows clock tape,
      ∃ (i : Nat) (off : Int), 100 ≤ off ∧ off ≤ 10000 ∧
        r.epochS = clock i - off ∧ r.epochS < clock i := by
  intro r hr
  obtain ⟨u, d, g, e, -, hc, rfl⟩ := runRows_mem clock tape hr
  subst hc
  rw [mkEvent_epochS]
  exact ⟨e.tick, 100 + ((e.tape (e.pos + 1) % 9901 : ℕ) : ℤ), by omega,
    by omega, rfl, by omega⟩

/-- C5: every data row has `0 ≤ humidityPct ≤ 100`,
`100000 ≤ pressurePa ≤ 105000` and `0 ≤ tempC ≤ 120`; `tempC` is an integer
multiple of `1/100` (2 decimal digits of precision); and the three
measurements come from three distinct draws of the random source. -/
theorem measurement_bounds (clock : Nat → Int) (tape : Nat → Nat) :
    ∀ r ∈ runRows clock tape,
      (0 ≤ r.humidityPct ∧ r.humidityPct ≤ 100) ∧
      (100000 ≤ r.pressurePa ∧ r.pressurePa ≤ 105000) ∧
      (0 ≤ r.tempC ∧ r.tempC ≤ 120) ∧
      (∃ k : ℤ, r.tempC = (k : ℚ) / 100) ∧
      (∃ a b c : Nat, a ≠ b ∧ a ≠ c ∧ b ≠ c ∧
        r.tempC = round2 (((tape a % 2 ^ 53 : ℕ) : ℚ) / 2 ^ 53 * 120) ∧
        r.humidityPct = ((tape b % 101 : ℕ) : Int) ∧
        r.pressurePa = 100000 + ((tape c % 5001 : ℕ) : Int)) := by
  intro r hr
  obtain ⟨u, d, g, e, ht, -, rfl⟩ := runRows_mem clock tape hr
  subst ht
  have hu0 : (0 : ℚ) ≤ ((e.tape (e.pos + 4) % 2 ^ 53 : ℕ) : ℚ) / 2 ^ 53 := by
    positivity
  have hu1 : ((e.tape (e.pos + 4) % 2 ^ 53 : ℕ) : ℚ) / 2 ^ 53 < 1 := by
    rw [div_lt_one (by positivity)]
    exact_mod_cast Nat.mod_lt _ (by norm_num)
  have hx0 : (0 : ℚ) ≤ ((e.tape (e.pos + 4) % 2 ^ 53 : ℕ) : ℚ) / 2 ^ 53 * 120 := by
    positivity
  have hx1 : ((e.tape (e.pos + 4) % 2 ^ 53 : ℕ) : ℚ) / 2 ^ 53 * 120 < 120 := by
    nlinarith
  obtain ⟨htl, htu⟩ := round2_nonneg_le _ hx0 hx1
  refine ⟨⟨?_, ?_⟩, ⟨?_, ?_⟩, ⟨?_, ?_⟩, ?_, ?_⟩
  · rw [mkEvent_humidityPct]; omega
  · rw [mkEvent_humidityPct]; omega
  · rw [mkEvent_pressurePa]; omega
  · rw [mkEvent_pressurePa]; omega
  · rw [mkEvent_tempC]; exact htl
  · rw [mkEvent_tempC]; exact htu
  · rw [mkEvent_tempC]
    exact ⟨_, rfl⟩
  · refine ⟨e.pos + 4, e.pos + 5, e.pos + 6, by omega, by omega, by omega,
      rfl, ?_, rfl⟩
    rw [mkEvent_humidityPct]
    omega

/-- The four user tokens of a run, in generation order. -/
def userTokens (tape : Nat → Nat) : List Nat :=
  [U tape 0, U tape 1, U tape 2, U tape 3]

/-- The eight device tokens of a run, in generation order. -/
def deviceTokens (tape : Nat → Nat) : List Nat :=
  [D tape 0 0, D tape 0 1, D tape 1 0, D tape 1 1,
   D tape 2 0, D tape 2 1, D tape 3 0, D tape 3 1]

theorem devRows_map_deviceId (u : Nat) (e : Env) :
    (devRows u e).map Row.deviceId =
      List.replicate 10 (e.tape e.pos % 2 ^ 128) := by
  simp [devRows, List.map_map, Function.comp_def]

theorem userRows_map_deviceId (e : Env) :
    (userRows e).map Row.deviceId =
      (List.range 2).flatMap fun j =>
        List.replicate 10 (e.tape (e.pos + (1 + 73 * j)) % 2 ^ 128) := by
  rw [userRows, List.map_flatMap]
  apply flatMap_ext
  intro j
  rw [devRows_map_deviceId]
  simp only [skip_tape, skip_pos]

theorem runRows_map_deviceId (clock : Nat → Int) (tape : Nat → Nat) :
    (runRows clock tape).map Row.deviceId =
      (List.range 4).flatMap fun i => (List.range 2).flatMap fun j =>
        List.replicate 10 (D tape i j) := by
  rw [runRows_eq, List.map_flatMap]
  apply flatMap_ext
  intro i
  rw [userRows_map_deviceId]
  apply flatMap_ext
  intro j
  simp only [D]
  exact replicate_congr 10 (tapeTok_congr tape (by omega))

theorem runRows_map_userId_flat (clock : Nat → Int) (tape : Nat → Nat) :
    (runRows clock tape).map Row.userId =
      (userTokens tape).flatMap fun x => List.replicate 20 x := by
  rw [runRows_map_userId]
  rfl

theorem runRows_map_deviceId_flat (clock : Nat → Int) (tape : Nat → Nat) :
    (runRows clock tape).map Row.deviceId =
      (deviceTokens tape).flatMap fun x => List.replicate 10 x := by
  rw [runRows_map_deviceId]
  rfl

theorem toFinset_flatMap_replicate (L : List Nat) (n : Nat) (hn : n ≠ 0) :
    (L.flatMap fun x => List.replicate n x).toFinset = L.toFinset := by
  induction L with
  | nil => rfl
  | cons x L ih =>
    rw [List.flatMap_cons, List.toFinset_append, ih, List.toFinset_cons,
      List.toFinset_replicate_of_ne_zero hn, ← Finset.insert_eq]

theorem count_flatMap_replicate (L : List Nat) (n : Nat) (hnd : L.Nodup)
    (d : Nat) (hd : d ∈ L) :
    (L.flatMap fun x => List.replicate n x).count d = n := by
  induction L with
  | nil => cases hd
  | cons x L ih =>
    rw [List.flatMap_cons, List.count_append]
    rcases List.mem_cons.mp hd with rfl | hd'
    · have hnotin : d ∉ L := (List.nodup_cons.mp hnd).1
      have hz : (L.flatMap fun x => List.replicate n x).count d = 0 := by
        rw [List.count_eq_zero]
        intro hmem
        rw [List.mem_flatMap] at hmem
        obtain ⟨y, hy, hmy⟩ := hmem
        rw [List.mem_replicate] at hmy
        exact hnotin (hmy.2 ▸ hy)
      rw [hz, List.count_replicate, if_pos (by simp)]
      omega
    · have hne : x ≠ d := fun h => (List.nodup_cons.mp hnd).1 (h ▸ hd')
      rw [List.count_replicate, if_neg (by simp [hne]),
        ih (List.nodup_cons.mp hnd).2 hd', Nat.zero_add]

theorem mem_of_mem_flatMap_replicate {L : List Nat} {n d : Nat}
    (hd : d ∈ L.flatMap fun x => List.replicate n x) : d ∈ L := by
  rw [List.mem_flatMap] at hd
  obtain ⟨y, hy, hmy⟩ := hd
  rw [List.mem_replicate] at hmy
  exact hmy.2 ▸ hy

theorem runRows_userIds_card (clock : Nat → Int) (tape : Nat → Nat)
    (hU : (userTokens tape).Nodup) :
    ((runRows clock tape).map Row.userId).toFinset.card = 4 := by
  rw [runRows_map_userId_flat,
    toFinset_flatMap_replicate _ _ (by norm_num),
    List.toFinset_card_of_nodup hU]
  rfl

theorem runRows_deviceId_count (clock : Nat → Int) (tape : Nat → Nat)
    (hD : (deviceTokens tape).Nodup) :
    ∀ dv ∈ (runRows clock tape).map Row.deviceId,
      ((runRows clock tape).map Row.deviceId).count dv = 10 := by
  intro dv hdv
  rw [runRows_map_deviceId_flat] at hdv ⊢
  exact count_flatMap_replicate _ 10 hD dv (mem_of_mem_flatMap_replicate hdv)

theorem replicate_pair_card_two (a b : Nat) (h : a ≠ b) :
    (List.replicate 10 a ++ List.replicate 10 b).toFinset.card = 2 := by
  rw [List.toFinset_append, List.toFinset_replicate_of_ne_zero (by norm_num),
    List.toFinset_replicate_of_ne_zero (by norm_num), ← Finset.insert_eq,
    Finset.card_insert_of_not_mem (by simp [h]), Finset.card_singleton]

theorem runRows_devices_per_user (clock : Nat → Int) (tape : Nat → Nat)
    (hU : (userTokens tape).Nodup) (hD : (deviceTokens tape).Nodup) :
    ∀ u ∈ (runRows clock tape).map Row.userId,
      ((((runRows clock tape).map fun r => (r.userId, r.deviceId)).filter
          (fun p => p.1 == u)).map Prod.snd).toFinset.card = 2 := by
  intro u hu
  have hu' : u ∈ userTokens tape := by
    rw [runRows_map_userId_flat] at hu
    exact mem_of_mem_flatMap_replicate hu
  simp only [userTokens, List.nodup_cons, List.mem_cons, List.mem_singleton,
    List.not_mem_nil, or_false, not_or, List.nodup_nil, and_true,
    not_false_eq_true] at hU
  obtain ⟨⟨h01, h02, h03⟩, ⟨h12, h13⟩, h23⟩ := hU
  simp only [deviceTokens, List.nodup_cons, List.mem_cons, List.mem_singleton,
    List.not_mem_nil, or_false, not_or, List.nodup_nil, and_true,
    not_false_eq_true] at hD
  obtain ⟨⟨hd1, -, -, -, -, -, -⟩, ⟨-, -, -, -, -, -⟩, ⟨hd2, -, -, -, -⟩,
    ⟨-, -, -, -⟩, ⟨hd3, -, -⟩, ⟨-, -⟩, hd4⟩ := hD
  rw [runRows_map_pair_ud]
  rw [show List.range 4 = [0, 1, 2, 3] from rfl,
    show List.range 2 = [0, 1] from rfl]
  simp only [List.flatMap_cons, List.flatMap_nil, List.append_nil]
  simp only [userTokens, List.mem_cons, List.mem_singleton,
    List.not_mem_nil, or_false] at hu'
  rcases hu' with rfl | rfl | rfl | rfl
  · simp only [List.filter_append, List.filter_replicate, beq_iff_eq,
      Prod.fst, decide_eq_true_eq, if_true]
    rw [if_neg (Ne.symm h01), if_neg (Ne.symm h01),
      if_neg (Ne.symm h02), if_neg (Ne.symm h02), if_neg (Ne.symm h03),
      if_neg (Ne.symm h03)]
    simp only [List.append_nil, List.nil_append, List.map_append,
      List.map_replicate]
    exact replicate_pair_card_two _ _ hd1
  · simp only [List.filter_append, List.filter_replicate, beq_iff_eq,
      Prod.fst, decide_eq_true_eq, if_true]
    rw [if_neg h01, if_neg h01,
      if_neg (Ne.symm h12), if_neg (Ne.symm h12), if_neg (Ne.symm h13),
      if_neg (Ne.symm h13)]
    simp only [List.append_nil, List.nil_append, List.map_append,
      List.map_replicate]
    exact replicate_pair_card_two _ _ hd2
  · simp only [List.filter_append, List.filter_replicate, beq_iff_eq,
      Prod.fst, decide_eq_true_eq, if_true]
    rw [if_neg h02, if_neg h02, if_neg h12, if_neg h12,
      if_neg (Ne.symm h23), if_neg (Ne.symm h23)]
    simp only [List.append_nil, List.nil_append, List.map_append,
      List.map_replicate]
    exact replicate_pair_card_two _ _ hd3
  · simp only [List.filter_append, List.filter_replicate, beq_iff_eq,
      Prod.fst, decide_eq_true_eq, if_true]
    rw [if_neg h03, if_neg h03, if_neg h13, if_neg h13, if_neg h23,
      if_neg h23]
    simp only [List.append_nil, List.nil_append, List.map_append,
      List.map_replicate]
    exact replicate_pair_card_two _ _ hd4

/-- Every data row's `(deviceId, geoLocation)` pair is one of the eight
per-device pairs of the run. -/
theorem runRows_pair_dg_mem (clock : Nat → Int) (tape : Nat → Nat) {r : Row}
    (hr : r ∈ runRows clock tape) :
    ∃ i j : Nat, i < 4 ∧ j < 2 ∧
      r.deviceId = D tape i j ∧ r.geoLocation = G tape i j := by
  have hmem : (r.deviceId, r.geoLocation) ∈
      (runRows clock tape).map (fun r => (r.deviceId, r.geoLocation)) :=
    List.mem_map_of_mem _ hr
  rw [runRows_map_pair_dg] at hmem
  rw [List.mem_flatMap] at hmem
  obtain ⟨i, hi, hmem⟩ := hmem
  rw [List.mem_flatMap] at hmem
  obtain ⟨j, hj, hmem⟩ := hmem
  rw [List.mem_replicate] at hmem
  rw [List.mem_range] at hi hj
  obtain ⟨hd, hg⟩ := Prod.mk.injEq .. ▸ hmem.2
  exact ⟨i, j, hi, hj, hd, hg⟩

/-- C2 (amended): the geo-location generator runs once per device, so any
two data rows sharing a `deviceId` have the same `geoLocation`, provided
the eight device tokens of the run are pairwise distinct. -/
theorem geo_constant_per_device (clock : Nat → Int) (tape : Nat → Nat)
    (hD : (deviceTokens tape).Nodup) :
    ∀ r1 ∈ runRows clock tape, ∀ r2 ∈ runRows clock tape,
      r1.deviceId = r2.deviceId → r1.geoLocation = r2.geoLocation := by
  intro r1 h1 r2 h2 hdev
  have m1 := runRows_pair_dg_mem clock tape h1
  have m2 := runRows_pair_dg_mem clock tape h2
  simp only [deviceTokens, List.nodup_cons, List.mem_cons, List.mem_singleton,
    List.not_mem_nil, or_false, not_or, List.nodup_nil, and_true,
    not_false_eq_true] at hD
  obtain ⟨i1, j1, hi1, hj1, ha1, hb1⟩ := m1
  obtain ⟨i2, j2, hi2, hj2, ha2, hb2⟩ := m2
  interval_cases i1 <;> interval_cases j1 <;> interval_cases i2 <;>
    interval_cases j2 <;> simp_all

/-- C6 (amended): each data row's `eventId` is exactly the fresh 128-bit
token drawn for that event, and the 80 `eventId` values are pairwise
distinct whenever those 80 tokens are pairwise distinct (a `uuid4`
collision, while astronomically unlikely, is the only way to violate
this). -/
theorem eventIds_fresh_and_distinct (clock : Nat → Int) (tape : Nat → Nat)
    (h : (eventTokens tape).Nodup) :
    (runRows clock tape).map Row.eventId = eventTokens tape ∧
    ((runRows clock tape).map Row.eventId).Nodup := by
  refine ⟨runRows_map_eventId clock tape, ?_⟩
  rw [runRows_map_eventId]
  exact h

/-- C1 (amended): every run writes exactly 81 lines — the header followed
by the 80 data rows — and, provided the four user tokens and the eight
device tokens drawn by the identifier generator are pairwise distinct, the
data rows carry exactly 4 distinct `userId` values, each with exactly 2
distinct `deviceId` values, and each `deviceId` on exactly 10 rows. -/
theorem output_shape (clock : Nat → Int) (tape : Nat → Nat)
    (hU : (userTokens tape).Nodup) (hD : (deviceTokens tape).Nodup) :
    (outputLines clock tape).length = 81 ∧
    outputLines clock tape = headerLine :: (runRows clock tape).map rowRecord ∧
    (runRows clock tape).length = 80 ∧
    ((runRows clock tape).map Row.userId).toFinset.card = 4 ∧
    (∀ u ∈ (runRows clock tape).map Row.userId,
      ((((runRows clock tape).map fun r => (r.userId, r.deviceId)).filter
          (fun p => p.1 == u)).map Prod.snd).toFinset.card = 2) ∧
    (∀ dv ∈ (runRows clock tape).map Row.deviceId,
      ((runRows clock tape).map Row.deviceId).count dv = 10) := by
  refine ⟨?_, rfl, runRows_length clock tape, runRows_userIds_card clock tape hU,
    runRows_devices_per_user clock tape hU hD,
    runRows_deviceId_count clock tape hD⟩
  rw [outputLines, List.length_cons, List.length_map, runRows_length]

/-- C7: the header row comes first and is written exactly once, every data
row serializes its nine cells in the fixed order `userId, deviceId,
eventId, geoLocation, epochS, expiry, tempC, humidityPct, pressurePa`, and
the file is the comma-separated rendering of those lines. -/
theorem csv_header_and_column_order (clock : Nat → Int) (tape : Nat → Nat) :
    outputLines clock tape = headerLine :: (runRows clock tape).map rowRecord ∧
    headerLine = ["userId", "deviceId", "eventId", "geoLocation", "epochS",
      "expiry", "tempC", "humidityPct", "pressurePa"].map Cell.text ∧
    (outputLines clock tape).count headerLine = 1 ∧
    (∀ r : Row, rowRecord r =
      [Cell.uuid r.userId, Cell.uuid r.deviceId, Cell.uuid r.eventId,
       Cell.text r.geoLocation, Cell.int r.epochS, Cell.int r.expiry,
       Cell.dec r.tempC, Cell.int r.humidityPct, Cell.int r.pressurePa]) ∧
    outputText clock tape =
      String.join ((outputLines clock tape).map
        (fun l => String.intercalate "," (l.map renderCell) ++ "\r\n")) := by
  refine ⟨rfl, rfl, ?_, fun r => rfl, rfl⟩
  rw [outputLines, List.count_cons]
  have hz : ((runRows clock tape).map rowRecord).count headerLine = 0 := by
    rw [List.count_eq_zero]
    intro hmem
    rw [List.mem_map] at hmem
    obtain ⟨r, -, hr⟩ := hmem
    have h2 := congrArg (fun l => l.headD (Cell.int 0)) hr
    exact Cell.noConfusion h2
  rw [hz, if_pos (by simp)]

/-- The modelled filesystem: whether the output file can be opened, and
whether the `i`-th row write succeeds. -/
structure FS where
  openOk : Bool
  writeOk : Nat → Bool

/-- Observable outcome of a run against a filesystem. -/
structure FileState where
  opened : Bool
  closed : Bool
  written : List (List Cell)
  errored : Bool

/-- Write rows one at a time; the first failing write raises, so nothing
after it is attempted and the row itself is not written. -/
def writeSeq (ok : Nat → Bool) : List (List Cell) → Nat → List (List Cell) × Bool
  | [], _ => ([], true)
  | l :: ls, i =>
    if ok i then
      let (w, b) := writeSeq ok ls (i + 1)
      (l :: w, b)
    else ([], false)

/-- The whole script under its `with open(...)` block: a failing open
writes nothing and propagates the error; otherwise the 81 lines are
written in order until the first failing write, which aborts the run with
the error propagated (each `writerow` is one write call, so rows are
written whole); the `with` statement closes the file on the success and
the error path alike. -/
def runFile (fs : FS) (clock : Nat → Int) (tape : Nat → Nat) : FileState :=
  if fs.openOk then
    let (w, success) := writeSeq fs.writeOk (outputLines clock tape) 0
    { opened := true, closed := true, written := w, errored := !success }
  else { opened := false, closed := false, written := [], errored := true }

theorem writeSeq_spec (ok : Nat → Bool) :
    ∀ (L : List (List Cell)) (i : Nat),
      (∃ n, (writeSeq ok L i).1 = L.take n) ∧
      ((writeSeq ok L i).2 = true →
        (writeSeq ok L i).1 = L ∧ ∀ j < L.length, ok (i + j) = true) ∧
      ((writeSeq ok L i).2 = false →
        ∃ k, ok (i + k) = false ∧ (∀ j < k, ok (i + j) = true) ∧
          (writeSeq ok L i).1 = L.take k) := by
  intro L
  induction L with
  | nil =>
    intro i
    refine ⟨⟨0, rfl⟩, fun _ => ⟨rfl, fun j hj => absurd hj (by simp)⟩,
      fun h => absurd h (by simp [writeSeq])⟩
  | cons l ls ih =>
    intro i
    by_cases hok : ok i = true
    · obtain ⟨⟨n, htake⟩, hsucc, hfail⟩ := ih (i + 1)
      have hstep : writeSeq ok (l :: ls) i =
          (l :: (writeSeq ok ls (i + 1)).1, (writeSeq ok ls (i + 1)).2) := by
        simp [writeSeq, hok]
      rw [hstep]
      refine ⟨⟨n + 1, by rw [List.take_succ_cons, htake]⟩, ?_, ?_⟩
      · intro hb
        obtain ⟨hall, hidx⟩ := hsucc hb
        refine ⟨by rw [hall], ?_⟩
        intro j hj
        match j with
        | 0 => simpa using hok
        | j + 1 =>
          have := hidx j (by simpa using hj)
          rw [show i + (j + 1) = i + 1 + j from by omega]
          exact this
      · intro hb
        obtain ⟨k, hk, hprev, htk⟩ := hfail hb
        refine ⟨k + 1, ?_, ?_, ?_⟩
        · rw [show i + (k + 1) = i + 1 + k from by omega]
          exact hk
        · intro j hj
          match j with
          | 0 => simpa using hok
          | j + 1 =>
            rw [show i + (j + 1) = i + 1 + j from by omega]
            exact hprev j (by omega)
        · rw [List.take_succ_cons, htk]
    · have hok' : ok i = false := by
        simpa using hok
      have hstep : writeSeq ok (l :: ls) i = ([], false) := by
        simp [writeSeq, hok']
      rw [hstep]
      refine ⟨⟨0, rfl⟩, by simp, ?_⟩
      intro _
      exact ⟨0, by simpa using hok', fun j hj => absurd hj (by omega), rfl⟩

/-- C9: the output file is opened once at the start and closed when the run
ends, on success and on error alike; a failing open aborts with nothing
written; what is written is always a prefix of whole output lines (no
partial rows); a run without error wrote all the lines; and a run with an
error either failed to open or stopped at the first failing write with
exactly the preceding lines written — no retry. -/
theorem file_lifecycle (fs : FS) (clock : Nat → Int) (tape : Nat → Nat) :
    ((runFile fs clock tape).opened = fs.openOk) ∧
    ((runFile fs clock tape).closed = (runFile fs clock tape).opened) ∧
    (fs.openOk = false →
      (runFile fs clock tape).written = [] ∧
      (runFile fs clock tape).errored = true) ∧
    (∃ n, (runFile fs clock tape).written = (outputLines clock tape).take n) ∧
    ((runFile fs clock tape).errored = false →
      (runFile fs clock tape).written = outputLines clock tape ∧
      fs.openOk = true) ∧
    ((runFile fs clock tape).errored = true →
      fs.openOk = false ∨
      ∃ k, fs.writeOk k = false ∧ (∀ j < k, fs.writeOk j = true) ∧
        (runFile fs clock tape).written = (outputLines clock tape).take k) := by
  obtain ⟨⟨n, htake⟩, hsucc, hfail⟩ :=
    writeSeq_spec fs.writeOk (outputLines clock tape) 0
  by_cases hopen : fs.openOk = true
  · have hrun : runFile fs clock tape =
        { opened := true, closed := true,
          written := (writeSeq fs.writeOk (outputLines clock tape) 0).1,
          errored := !(writeSeq fs.writeOk (outputLines clock tape) 0).2 } := by
      simp [runFile, hopen]
    rw [hrun]
    refine ⟨hopen.symm, rfl, by simp [hopen], ⟨n, htake⟩, ?_, ?_⟩
    · intro hb
      have hb' : (writeSeq fs.writeOk (outputLines clock tape) 0).2 = true := by
        simpa using hb
      exact ⟨(hsucc hb').1, hopen⟩
    · intro hb
      have hb' : (writeSeq fs.writeOk (outputLines clock tape) 0).2 = false := by
        simpa using hb
      obtain ⟨k, hk, hprev, htk⟩ := hfail hb'
      exact Or.inr ⟨k, by simpa using hk, fun j hj => by simpa using hprev j hj,
        htk⟩
  · have hopen' : fs.openOk = false := by simpa using hopen
    have hrun : runFile fs clock tape =
        { opened := false, closed := false, written := [], errored := true } := by
      simp [runFile, hopen']
    rw [hrun]
    exact ⟨hopen'.symm, rfl, fun _ => ⟨rfl, rfl⟩, ⟨0, rfl⟩,
      by simp, fun _ => Or.inl hopen'⟩

/-- C10: a run is a deterministic function of the random draw sequence and
the clock readings: two runs over identical draw sequences and identical
clock readings produce byte-identical files. -/
theorem output_deterministic (c1 c2 : Nat → Int) (t1 t2 : Nat → Nat)
    (hc : ∀ i, c1 i = c2 i) (ht : ∀ i, t1 i = t2 i) :
    outputText c1 t1 = outputText c2 t2 := by
  rw [funext hc, funext ht]

/-- The all-zero draw sequence: every uuid draw collides. -/
def tape0 : Nat → Nat := fun _ => 0

/-- A constant clock. -/
def clock0 : Nat → Int := fun _ => 0

/-- The identity draw sequence: all uuid draws are distinct. -/
def tapeId : Nat → Nat := fun i => i

/-- A draw sequence whose two device tokens of user 0 collide (both uuid
draws are 0, at positions 1 and 74) while their geo-state draws (positions
2 and 75) differ. -/
def tapeGeo : Nat → Nat := fun i => if i = 75 then 1 else 0

/-- The all-3 draw sequence: every expiry choice picks slot 3, so every row
has a nonzero expiry. -/
def tape3 : Nat → Nat := fun _ => 3

/-- The first data row of the all-3 run. -/
def sampleRow : Row := (runRows clock0 tape3).head!

theorem sampleRow_mem : sampleRow ∈ runRows clock0 tape3 :=
  List.head!_mem_self (List.length_pos.mp (by rw [runRows_length]; norm_num))

/-- A filesystem on which open and every write succeed. -/
def fsAll : FS := ⟨true, fun _ => true⟩

set_option maxRecDepth 40000

/-- Counterexample to C1 as stated: on the all-zero draw sequence every
identifier collides, and the run has 1 distinct `userId` value, not 4. -/
theorem output_shape_cex :
    ¬ ((outputLines clock0 tape0).length = 81 ∧
       ((runRows clock0 tape0).map Row.userId).toFinset.card = 4 ∧
       (∀ u ∈ (runRows clock0 tape0).map Row.userId,
         ((((runRows clock0 tape0).map fun r => (r.userId, r.deviceId)).filter
             (fun p => p.1 == u)).map Prod.snd).toFinset.card = 2) ∧
       (∀ dv ∈ (runRows clock0 tape0).map Row.deviceId,
         ((runRows clock0 tape0).map Row.deviceId).count dv = 10)) := by
  intro h
  exact absurd h.2.1 (by decide)

/-- Witness for C1: on the identity draw sequence all tokens are distinct
and the grouping holds. -/
theorem output_shape_witness :
    (userTokens tapeId).Nodup ∧ (deviceTokens tapeId).Nodup ∧
    ((runRows clock0 tapeId).map Row.userId).toFinset.card = 4 :=
  ⟨by decide, by decide,
    (output_shape clock0 tapeId (by decide) (by decide)).2.2.2.1⟩

/-- Counterexample to C2 as stated: on `tapeGeo` the two devices of user 0
share their (colliding) `deviceId` but carry different geo locations. -/
theorem geo_constant_per_device_cex :
    ¬ (∀ r1 ∈ runRows clock0 tapeGeo, ∀ r2 ∈ runRows clock0 tapeGeo,
        r1.deviceId = r2.deviceId → r1.geoLocation = r2.geoLocation) := by
  decide

/-- Witness for C2 on the identity draw sequence. -/
theorem geo_constant_per_device_witness :
    (deviceTokens tapeId).Nodup ∧
    (∀ r1 ∈ runRows clock0 tapeId, ∀ r2 ∈ runRows clock0 tapeId,
      r1.deviceId = r2.deviceId → r1.geoLocation = r2.geoLocation) :=
  ⟨by decide, geo_constant_per_device clock0 tapeId (by decide)⟩

/-- Witness for C3: the first row of the all-3 run has a nonzero expiry,
and it exceeds that row's `epochS`. -/
theorem expiry_gt_epochS_witness :
    sampleRow ∈ runRows clock0 tape3 ∧ sampleRow.expiry ≠ 0 ∧
    sampleRow.epochS < sampleRow.expiry :=
  ⟨sampleRow_mem, by decide,
    expiry_gt_epochS clock0 tape3 sampleRow sampleRow_mem (by decide)⟩

/-- Witness for C5 at the first row of the all-3 run. -/
theorem measurement_bounds_witness :
    sampleRow ∈ runRows clock0 tape3 ∧
    (0 ≤ sampleRow.humidityPct ∧ sampleRow.humidityPct ≤ 100) ∧
    (100000 ≤ sampleRow.pressurePa ∧ sampleRow.pressurePa ≤ 105000) ∧
    (0 ≤ sampleRow.tempC ∧ sampleRow.tempC ≤ 120) ∧
    (∃ k : ℤ, sampleRow.tempC = (k : ℚ) / 100) ∧
    (∃ a b c : Nat, a ≠ b ∧ a ≠ c ∧ b ≠ c ∧
      sampleRow.tempC = round2 (((tape3 a % 2 ^ 53 : ℕ) : ℚ) / 2 ^ 53 * 120) ∧
      sampleRow.humidityPct = ((tape3 b % 101 : ℕ) : Int) ∧
      sampleRow.pressurePa = 100000 + ((tape3 c % 5001 : ℕ) : Int)) :=
  ⟨sampleRow_mem, measurement_bounds clock0 tape3 sampleRow sampleRow_mem⟩

/-- Counterexample to C6 as stated: on the all-zero draw sequence all event
tokens collide and the `eventId` values are not pairwise distinct. -/
theorem eventIds_distinct_cex :
    ¬ ((runRows clock0 tape0).map Row.eventId).Nodup := by
  decide

/-- Witness for C6 on the identity draw sequence. -/
theorem eventIds_fresh_and_distinct_witness :
    (eventTokens tapeId).Nodup ∧
    ((runRows clock0 tapeId).map Row.eventId).Nodup :=
  ⟨by decide, (eventIds_fresh_and_distinct clock0 tapeId (by decide)).2⟩

/-- Witness for C8 at the first row of the all-3 run. -/
theorem epochS_recent_past_witness :
    sampleRow ∈ runRows clock0 tape3 ∧
    ∃ (i : Nat) (off : Int), 100 ≤ off ∧ off ≤ 10000 ∧
      sampleRow.epochS = clock0 i - off ∧ sampleRow.epochS < clock0 i :=
  ⟨sampleRow_mem, epochS_recent_past clock0 tape3 sampleRow sampleRow_mem⟩

/-- Witness for C9: on a fully healthy filesystem the run reports no error
and all 81 lines are written. -/
theorem file_lifecycle_witness :
    (runFile fsAll clock0 tape0).errored = false ∧
    (runFile fsAll clock0 tape0).written = outputLines clock0 tape0 :=
  ⟨by decide,
    ((file_lifecycle fsAll clock0 tape0).2.2.2.2.1 (by decide)).1⟩

/-- Witness for C10: two runs over the same concrete draw sequence and
clock agree. -/
theorem output_deterministic_witness :
    outputText clock0 tape0 = outputText clock0 tape0 :=
  output_deterministic clock0 clock0 tape0 tape0 (fun _ => rfl) (fun _ => rfl)

end CreateExampleCsv
